import Mathlib

/-!
Verification of the HackerOne analytics ETL pipeline (`process_data.py`).

The development shallowly embeds the pipeline's data model and operations:

* `Cell` models a raw pandas CSV cell (string, null/NaN, or a scalar that
  pandas produced for a non-text column).
* `clean_json_string` embeds the field normalizer of the same name.
* `json_loads` and `literal_eval` model Python's strict JSON decoder and
  `ast.literal_eval`, restricted to the value forms that occur in this
  dataset (null/None, booleans, integers, strings, arrays/lists, objects/
  dicts).  Floating point literals, `\u` escapes and non-string dict keys
  are outside the model; every claim either quantifies over the decoders
  through explicit hypotheses or evaluates them on inputs inside the model.
* `parse_cell` / `parse_json_column` embed the decoding fallback chain.
* the extractors (`reporter_*`, `extract_team_info`, `weakness_*`,
  `scope_*`) embed the field-extraction lambdas.
* `Row` is the enriched row of the spec; `vulnerability_summary_table`,
  `org_metrics_table`, `reporter_analytics_table` and `time_trends_table`
  embed the four groupby aggregations.
-/

/-- Character constants used throughout; named so that quote and brace
characters never appear as literals. -/
def squote : Char := Char.ofNat 39

/-- Double-quote character. -/
def dquote : Char := Char.ofNat 34

/-- Left curly brace character. -/
def lbrace : Char := Char.ofNat 123

/-- Right curly brace character. -/
def rbrace : Char := Char.ofNat 125

/-- Left square bracket character. -/
def lbrack : Char := Char.ofNat 91

/-- Right square bracket character. -/
def rbrack : Char := Char.ofNat 93

/-- Backslash character. -/
def backslash : Char := Char.ofNat 92

/-- Newline character. -/
def newlineChar : Char := Char.ofNat 10

/-- Raw CSV cell as produced by `pd.read_csv`: a missing value (`None`),
a float NaN, a string, or a non-string scalar. -/
inductive Cell where
  | null
  | nan
  | str (s : String)
  | int (n : Int)
  | bool (b : Bool)
deriving DecidableEq

/-- Embedding of `pd.isna` on a scalar cell. -/
def Cell.isna : Cell → Bool
  | .null => true
  | .nan => true
  | _ => false

/-- Structured record decoded from a cell: the JSON/Python value universe
used by the pipeline (`None`/`null`, booleans, integers, strings, lists,
and dicts as key/value association lists with unique keys). -/
inductive Value where
  | null
  | bool (b : Bool)
  | int (n : Int)
  | str (s : String)
  | list (xs : List Value)
  | obj (kvs : List (String × Value))

/-- The empty mapping (Python `\x7b\x7d`). -/
def emptyObj : Value := Value.obj []

/-- Python `str.replace` (and `re.sub` with a literal pattern): replace
non-overlapping occurrences of `pat` left to right.  Fuel-indexed; the
fuel is instantiated with the input length, which suffices because every
step consumes at least one input character. -/
def replaceSubAux (pat repl : List Char) : Nat → List Char → List Char
  | 0, l => l
  | _ + 1, [] => []
  | fuel + 1, c :: cs =>
    if pat.isPrefixOf (c :: cs) && !pat.isEmpty then
      repl ++ replaceSubAux pat repl fuel ((c :: cs).drop pat.length)
    else
      c :: replaceSubAux pat repl fuel cs

/-- String-level wrapper for `replaceSubAux`. -/
def replaceSub (pat repl s : String) : String :=
  ⟨replaceSubAux pat.data repl.data s.data.length s.data⟩

/-- Scanner for the tail of the non-greedy regex
`array\(\[.*?\], dtype=object\)`: starting right after the literal
`array([`, consume the shortest run of non-newline characters followed by
the literal `], dtype=object)`, returning the remainder of the input after
the whole match, or `none` when no match exists (end of input or a newline
is reached first, mirroring that `.` does not match newlines). -/
def arrayCloseScan : Nat → List Char → Option (List Char)
  | 0, _ => none
  | fuel + 1, l =>
    if ("], dtype=object)".data).isPrefixOf l then some (l.drop 16)
    else
      match l with
      | [] => none
      | c :: cs => if c = newlineChar then none else arrayCloseScan fuel cs

/-- Embedding of `re.sub(r'array\(\[.*?\], dtype=object\)', '[]', s)`:
scan positions left to right; at a position where the literal `array([`
matches and a close scan succeeds, emit `[]` and continue after the match
(non-overlapping); otherwise emit the character and move one position. -/
def arraySub2Aux : Nat → List Char → List Char
  | 0, l => l
  | _ + 1, [] => []
  | fuel + 1, c :: cs =>
    if ("array([".data).isPrefixOf (c :: cs) then
      match arrayCloseScan ((c :: cs).length) ((c :: cs).drop 7) with
      | some rest => lbrack :: rbrack :: arraySub2Aux fuel rest
      | none => c :: arraySub2Aux fuel cs
    else
      c :: arraySub2Aux fuel cs

/-- String-level wrapper for `arraySub2Aux`. -/
def arraySub2 (s : String) : String := ⟨arraySub2Aux s.data.length s.data⟩

/-- Embedding of `clean_json_string` from `process_data.py`: null/NaN or
non-string cells yield the empty-object literal; otherwise apply, in
order, the two `re.sub` array collapses, the three `str.replace`
substitutions for `None`/`True`/`False`, and the single-to-double quote
replacement. -/
def clean_json_string : Cell → String
  | Cell.str s =>
    let s1 := replaceSub "array([], dtype=object)" "[]" s
    let s2 := arraySub2 s1
    let s3 := replaceSub "None" "null" s2
    let s4 := replaceSub "True" "true" s3
    let s5 := replaceSub "False" "false" s4
    ⟨s5.data.map (fun c => if c = squote then dquote else c)⟩
  | _ => "\x7b\x7d"

/-- Whitespace recognized by the decoders (space, tab, newline, carriage
return). -/
def isWsChar (c : Char) : Bool :=
  c = ' ' || c = Char.ofNat 9 || c = newlineChar || c = Char.ofNat 13

/-- Drop leading whitespace. -/
def skipWs : List Char → List Char
  | [] => []
  | c :: cs => if isWsChar c then skipWs cs else c :: cs

/-- Decimal digit test. -/
def isDigitCh (c : Char) : Bool := 48 ≤ c.toNat && c.toNat ≤ 57

/-- Accumulate a run of decimal digits into a natural number, returning
the value and the remaining input. -/
def readDigits : List Char → Nat → Nat × List Char
  | [], acc => (acc, [])
  | c :: cs, acc =>
    if isDigitCh c then readDigits cs (acc * 10 + (c.toNat - 48)) else (acc, c :: cs)

/-- Insert a key into a dict association list with Python `dict` update
semantics: an existing key keeps its position and gets the new value, a
fresh key is appended. -/
def insertKV : List (String × Value) → String → Value → List (String × Value)
  | [], k, v => [(k, v)]
  | (k0, v0) :: rest, k, v =>
    if k0 = k then (k0, v) :: rest else (k0, v0) :: insertKV rest k v

/-- Fold a parsed member list into a dict with Python update semantics
(later duplicate keys overwrite earlier values). -/
def dictOfPairs (ps : List (String × Value)) : List (String × Value) :=
  ps.foldl (fun acc kv => insertKV acc kv.1 kv.2) []

/-- First-match lookup in a dict association list (keys are unique by
construction, so this is Python `dict.get`). -/
def pyGet (kvs : List (String × Value)) (k : String) : Option Value :=
  match kvs.find? (fun kv => kv.1 == k) with
  | some kv => some kv.2
  | none => none

/-- Python `dict.get(k, default)`. -/
def pyGetD (kvs : List (String × Value)) (k : String) (d : Value) : Value :=
  (pyGet kvs k).getD d

/-- JSON string escape map (the common single-character escapes; `\u`
escapes are outside the model). -/
def jsonEscape (c : Char) : Option Char :=
  if c = dquote then some dquote
  else if c = backslash then some backslash
  else if c = '/' then some '/'
  else if c = 'n' then some newlineChar
  else if c = 't' then some (Char.ofNat 9)
  else if c = 'r' then some (Char.ofNat 13)
  else if c = 'b' then some (Char.ofNat 8)
  else if c = 'f' then some (Char.ofNat 12)
  else none

/-- Parse the body of a double-quoted JSON string (the opening quote has
been consumed), returning the content and the input after the closing
quote. -/
def jsonStringRest : List Char → Option (List Char × List Char)
  | [] => none
  | c :: cs =>
    if c = dquote then some ([], cs)
    else if c = backslash then
      match cs with
      | [] => none
      | e :: cs2 =>
        match jsonEscape e with
        | some ch =>
          match jsonStringRest cs2 with
          | some (content, rest) => some (ch :: content, rest)
          | none => none
        | none => none
    else
      match jsonStringRest cs with
      | some (content, rest) => some (c :: content, rest)
      | none => none

mutual

/-- Model of a strict JSON value parse (Python `json.loads` grammar,
restricted to null/true/false, integers, strings, arrays and objects).
Fuel-indexed for termination; callers pass ample fuel. -/
def jsonVal : Nat → List Char → Option (Value × List Char)
  | 0, _ => none
  | fuel + 1, l =>
    match skipWs l with
    | [] => none
    | c :: cs =>
      if c = dquote then
        match jsonStringRest cs with
        | some (content, rest) => some (Value.str ⟨content⟩, rest)
        | none => none
      else if c = lbrack then jsonArr fuel cs
      else if c = lbrace then jsonObj fuel cs
      else if c = '-' then
        match cs with
        | [] => none
        | d :: ds =>
          if isDigitCh d then
            let p := readDigits (d :: ds) 0
            some (Value.int (-(p.1 : Int)), p.2)
          else none
      else if isDigitCh c then
        let p := readDigits (c :: cs) 0
        some (Value.int (p.1 : Int), p.2)
      else if ("null".data).isPrefixOf (c :: cs) then some (Value.null, (c :: cs).drop 4)
      else if ("true".data).isPrefixOf (c :: cs) then some (Value.bool true, (c :: cs).drop 4)
      else if ("false".data).isPrefixOf (c :: cs) then some (Value.bool false, (c :: cs).drop 5)
      else none

/-- Parse a JSON array after the opening bracket. -/
def jsonArr : Nat → List Char → Option (Value × List Char)
  | 0, _ => none
  | fuel + 1, l =>
    match skipWs l with
    | [] => none
    | c :: cs =>
      if c = rbrack then some (Value.list [], cs)
      else
        match jsonArrItems fuel (c :: cs) with
        | some (vs, rest) => some (Value.list vs, rest)
        | none => none

/-- Parse one or more comma-separated JSON array items, consuming the
closing bracket. -/
def jsonArrItems : Nat → List Char → Option (List Value × List Char)
  | 0, _ => none
  | fuel + 1, l =>
    match jsonVal fuel l with
    | none => none
    | some (v, rest) =>
      match skipWs rest with
      | [] => none
      | c :: cs =>
        if c = ',' then
          match jsonArrItems fuel cs with
          | some (vs, rest2) => some (v :: vs, rest2)
          | none => none
        else if c = rbrack then some ([v], cs)
        else none

/-- Parse a JSON object after the opening brace. -/
def jsonObj : Nat → List Char → Option (Value × List Char)
  | 0, _ => none
  | fuel + 1, l =>
    match skipWs l with
    | [] => none
    | c :: cs =>
      if c = rbrace then some (Value.obj [], cs)
      else
        match jsonMembers fuel (c :: cs) with
        | some (ps, rest) => some (Value.obj (dictOfPairs ps), rest)
        | none => none

/-- Parse one or more comma-separated JSON object members, consuming the
closing brace. -/
def jsonMembers : Nat → List Char → Option (List (String × Value) × List Char)
  | 0, _ => none
  | fuel + 1, l =>
    match skipWs l with
    | [] => none
    | c :: cs =>
      if c = dquote then
        match jsonStringRest cs with
        | none => none
        | some (key, rest) =>
          match skipWs rest with
          | [] => none
          | c2 :: cs2 =>
            if c2 = ':' then
              match jsonVal fuel cs2 with
              | none => none
              | some (v, rest2) =>
                match skipWs rest2 with
                | [] => none
                | c3 :: cs3 =>
                  if c3 = ',' then
                    match jsonMembers fuel cs3 with
                    | some (ps, rest3) => some ((⟨key⟩, v) :: ps, rest3)
                    | none => none
                  else if c3 = rbrace then some ([(⟨key⟩, v)], cs3)
                  else none
            else none
      else none

end

/-- Model of Python `json.loads` on a whole string: parse one value and
require only whitespace after it. -/
def json_loads (s : String) : Option Value :=
  match jsonVal (4 * s.data.length + 16) s.data with
  | some (v, rest) => if skipWs rest = [] then some v else none
  | none => none

/-- Python string escape map for literal strings (the common
single-character escapes; other escapes are outside the model). -/
def pyEscape (c : Char) : Option Char :=
  if c = squote then some squote
  else if c = dquote then some dquote
  else if c = backslash then some backslash
  else if c = 'n' then some newlineChar
  else if c = 't' then some (Char.ofNat 9)
  else if c = 'r' then some (Char.ofNat 13)
  else none

/-- Parse the body of a Python string literal quoted by `q` (the opening
quote has been consumed). -/
def pyStringRest (q : Char) : List Char → Option (List Char × List Char)
  | [] => none
  | c :: cs =>
    if c = q then some ([], cs)
    else if c = backslash then
      match cs with
      | [] => none
      | e :: cs2 =>
        match pyEscape e with
        | some ch =>
          match pyStringRest q cs2 with
          | some (content, rest) => some (ch :: content, rest)
          | none => none
        | none => none
    else
      match pyStringRest q cs with
      | some (content, rest) => some (c :: content, rest)
      | none => none

mutual

/-- Model of a Python literal parse (`ast.literal_eval` grammar,
restricted to `None`/`True`/`False`, integers, single- or double-quoted
strings, lists and dicts with string keys).  Fuel-indexed for
termination; callers pass ample fuel. -/
def pyVal : Nat → List Char → Option (Value × List Char)
  | 0, _ => none
  | fuel + 1, l =>
    match skipWs l with
    | [] => none
    | c :: cs =>
      if c = squote || c = dquote then
        match pyStringRest c cs with
        | some (content, rest) => some (Value.str ⟨content⟩, rest)
        | none => none
      else if c = lbrack then pyListBody fuel cs
      else if c = lbrace then pyDictBody fuel cs
      else if c = '-' then
        match cs with
        | [] => none
        | d :: ds =>
          if isDigitCh d then
            let p := readDigits (d :: ds) 0
            some (Value.int (-(p.1 : Int)), p.2)
          else none
      else if isDigitCh c then
        let p := readDigits (c :: cs) 0
        some (Value.int (p.1 : Int), p.2)
      else if ("None".data).isPrefixOf (c :: cs) then some (Value.null, (c :: cs).drop 4)
      else if ("True".data).isPrefixOf (c :: cs) then some (Value.bool true, (c :: cs).drop 4)
      else if ("False".data).isPrefixOf (c :: cs) then some (Value.bool false, (c :: cs).drop 5)
      else none

/-- Parse a Python list literal after the opening bracket. -/
def pyListBody : Nat → List Char → Option (Value × List Char)
  | 0, _ => none
  | fuel + 1, l =>
    match skipWs l with
    | [] => none
    | c :: cs =>
      if c = rbrack then some (Value.list [], cs)
      else
        match pyListItems fuel (c :: cs) with
        | some (vs, rest) => some (Value.list vs, rest)
        | none => none

/-- Parse one or more comma-separated Python list items, consuming the
closing bracket. -/
def pyListItems : Nat → List Char → Option (List Value × List Char)
  | 0, _ => none
  | fuel + 1, l =>
    match pyVal fuel l with
    | none => none
    | some (v, rest) =>
      match skipWs rest with
      | [] => none
      | c :: cs =>
        if c = ',' then
          match pyListItems fuel cs with
          | some (vs, rest2) => some (v :: vs, rest2)
          | none => none
        else if c = rbrack then some ([v], cs)
        else none

/-- Parse a Python dict literal after the opening brace. -/
def pyDictBody : Nat → List Char → Option (Value × List Char)
  | 0, _ => none
  | fuel + 1, l =>
    match skipWs l with
    | [] => none
    | c :: cs =>
      if c = rbrace then some (Value.obj [], cs)
      else
        match pyDictItems fuel (c :: cs) with
        | some (ps, rest) => some (Value.obj (dictOfPairs ps), rest)
        | none => none

/-- Parse one or more comma-separated Python dict members with string
keys, consuming the closing brace. -/
def pyDictItems : Nat → List Char → Option (List (String × Value) × List Char)
  | 0, _ => none
  | fuel + 1, l =>
    match skipWs l with
    | [] => none
    | c :: cs =>
      if c = squote || c = dquote then
        match pyStringRest c cs with
        | none => none
        | some (key, rest) =>
          match skipWs rest with
          | [] => none
          | c2 :: cs2 =>
            if c2 = ':' then
              match pyVal fuel cs2 with
              | none => none
              | some (v, rest2) =>
                match skipWs rest2 with
                | [] => none
                | c3 :: cs3 =>
                  if c3 = ',' then
                    match pyDictItems fuel cs3 with
                    | some (ps, rest3) => some ((⟨key⟩, v) :: ps, rest3)
                    | none => none
                  else if c3 = rbrace then some ([(⟨key⟩, v)], cs3)
                  else none
            else none
      else none

end

/-- Model of Python `ast.literal_eval` on a whole string: parse one
literal and require only whitespace after it. -/
def literal_eval (s : String) : Option Value :=
  match pyVal (4 * s.data.length + 16) s.data with
  | some (v, rest) => if skipWs rest = [] then some v else none
  | none => none

/-- Embedding of the per-item body of `parse_json_column`: null/NaN cells
become the empty mapping; string cells are normalized and decoded with the
strict JSON decoder, falling back to a permissive literal decode of the
original (unnormalized) string, falling back to the empty mapping; any
other cell is passed through unchanged. -/
def parse_cell : Cell → Value
  | Cell.null => emptyObj
  | Cell.nan => emptyObj
  | Cell.str s =>
    match json_loads (clean_json_string (Cell.str s)) with
    | some v => v
    | none =>
      match literal_eval s with
      | some v => v
      | none => emptyObj
  | Cell.int n => Value.int n
  | Cell.bool b => Value.bool b

/-- Embedding of `parse_json_column`: elementwise decode of a column. -/
def parse_json_column (cells : List Cell) : List Value :=
  cells.map parse_cell

/-- Embedding of the reporter username lambda:
`x.get('username', '') if isinstance(x, dict) else ''`. -/
def reporter_username (v : Value) : Value :=
  match v with
  | Value.obj kvs => pyGetD kvs "username" (Value.str "")
  | _ => Value.str ""

/-- Embedding of the reporter verified lambda (default `False`). -/
def reporter_verified (v : Value) : Value :=
  match v with
  | Value.obj kvs => pyGetD kvs "verified" (Value.bool false)
  | _ => Value.bool false

/-- Embedding of the reporter cleared lambda (default `False`). -/
def reporter_cleared (v : Value) : Value :=
  match v with
  | Value.obj kvs => pyGetD kvs "cleared" (Value.bool false)
  | _ => Value.bool false

/-- Embedding of the weakness id lambda (default empty string). -/
def weakness_id (v : Value) : Value :=
  match v with
  | Value.obj kvs => pyGetD kvs "id" (Value.str "")
  | _ => Value.str ""

/-- Embedding of the weakness name lambda (default empty string). -/
def weakness_name_of (v : Value) : Value :=
  match v with
  | Value.obj kvs => pyGetD kvs "name" (Value.str "")
  | _ => Value.str ""

/-- Embedding of the scope asset-type lambda (default empty string). -/
def scope_asset_type (v : Value) : Value :=
  match v with
  | Value.obj kvs => pyGetD kvs "asset_type" (Value.str "")
  | _ => Value.str ""

/-- Embedding of the scope max-severity lambda (default empty string). -/
def scope_max_severity (v : Value) : Value :=
  match v with
  | Value.obj kvs => pyGetD kvs "max_severity" (Value.str "")
  | _ => Value.str ""

/-- Embedding of the scope asset-identifier lambda (default empty
string). -/
def scope_asset_identifier (v : Value) : Value :=
  match v with
  | Value.obj kvs => pyGetD kvs "asset_identifier" (Value.str "")
  | _ => Value.str ""

/-- Result record of `extract_team_info`.  The fields carry raw decoded
values because the source code stores `dict.get` results without type
checks. -/
structure TeamInfo where
  handle : Value
  name : Value
  offers_bounties : Value

/-- The all-defaults team record. -/
def defaultTeamInfo : TeamInfo :=
  { handle := Value.str "", name := Value.str "", offers_bounties := Value.bool false }

/-- Body shared by the dict branch and the list-of-dicts branch of
`extract_team_info`: `handle` and `offers_bounties` come from top-level
keys; `name` comes from `profile.name` guarded by
`isinstance(team.get('profile'), dict)`. -/
def teamFromDict (kvs : List (String × Value)) : TeamInfo :=
  { handle := pyGetD kvs "handle" (Value.str "")
    name :=
      match pyGet kvs "profile" with
      | some (Value.obj p) => pyGetD p "name" (Value.str "")
      | _ => Value.str ""
    offers_bounties := pyGetD kvs "offers_bounties" (Value.bool false) }

/-- Embedding of `extract_team_info`.  A dict is read directly; a
non-empty list reads its first element with `.get`, which raises
`AttributeError` (modeled as `Except.error ()`) when that element is not
a dict; every other shape yields the all-defaults record. -/
def extract_team_info (team_data : Value) : Except Unit TeamInfo :=
  match team_data with
  | Value.obj kvs => Except.ok (teamFromDict kvs)
  | Value.list (t :: _) =>
    match t with
    | Value.obj kvs => Except.ok (teamFromDict kvs)
    | _ => Except.error ()
  | _ => Except.ok defaultTeamInfo

/-- Lexicographic comparison of character lists by code point, the order
Python uses on `str` and hence the order pandas sorts string values in. -/
def strLebAux : List Char → List Char → Bool
  | [], _ => true
  | _ :: _, [] => false
  | a :: as, b :: bs =>
    if a.toNat < b.toNat then true
    else if b.toNat < a.toNat then false
    else strLebAux as bs

/-- String comparison wrapper for `strLebAux`. -/
def strLeb (s t : String) : Bool := strLebAux s.data t.data

/-- Propositional form of `strLeb`, used as the sorting relation. -/
def strLe (a b : String) : Prop := strLeb a b = true

instance : DecidableRel strLe := fun a b =>
  inferInstanceAs (Decidable (strLeb a b = true))

/-- Largest frequency of any element of `vs`. -/
def maxCount (vs : List String) : Nat :=
  (vs.dedup.map (fun v => vs.count v)).foldr max 0

/-- Embedding of pandas `Series.mode()`: drop nulls, keep the values of
maximal frequency, and return them sorted ascending. -/
def series_mode (xs : List (Option String)) : List String :=
  let vs := xs.filterMap id
  List.insertionSort strLe
    (vs.dedup.filter (fun v => vs.count v = maxCount vs))

/-- Embedding of the aggregation lambda
`x.mode().iloc[0] if len(x.mode()) > 0 else 'unknown'`. -/
def mode_agg (xs : List (Option String)) : String :=
  match series_mode xs with
  | [] => "unknown"
  | m :: _ => m

/-- Round a rational to the nearest integer, ties to even (the rounding
used by `numpy`/pandas `.round`). -/
def roundHalfEven (y : ℚ) : ℤ :=
  if y - ⌊y⌋ < 1/2 then ⌊y⌋
  else if 1/2 < y - ⌊y⌋ then ⌊y⌋ + 1
  else if ⌊y⌋ % 2 = 0 then ⌊y⌋ else ⌊y⌋ + 1

/-- Embedding of `.round(2)`: round to two decimal places, ties to
even. -/
def round2 (q : ℚ) : ℚ := ((roundHalfEven (q * 100) : ℤ) : ℚ) / 100

/-- Enriched row of the pipeline after field extraction and date
processing.  String-like derived fields are `Option String`: extraction
defaults produce empty strings, but a decoded record can still carry an
explicit null (for example `'name': None`), which pandas treats as NaN in
grouping, mode and uniqueness computations.  `id` and `vote_count` are
always present in the raw dataset, and `year_month` is `none` exactly
when `created_at` failed to parse (`errors='coerce'`). -/
structure Row where
  id : Int
  weakness_name : Option String
  team_handle : Option String
  team_name : Option String
  reporter_username : Option String
  reporter_verified : Bool
  reporter_cleared : Bool
  scope_max_severity : Option String
  has_bounty : Bool
  vote_count : ℚ
  substate : String
  created_at : Option Int
  year_month : Option String
deriving DecidableEq

/-- Embedding of `df.groupby(key)` with the pandas defaults `sort=True`
(group keys ascending) and `dropna=True` (rows whose key is null join no
group): the list of (key, member rows in input order) pairs. -/
def groupByDropna {K : Type} [DecidableEq K] (leb : K → K → Bool)
    (key : Row → Option K) (rows : List Row) : List (K × List Row) :=
  (List.insertionSort (fun a b => leb a b = true) ((rows.filterMap key).dedup)).map
    (fun k => (k, rows.filter (fun x => decide (key x = some k))))

/-- Mean of the vote counts of a group (`'vote_count': 'mean'`). -/
def groupMean (g : List Row) : ℚ := (g.map (·.vote_count)).sum / (g.length : ℚ)

/-- Row of the Vulnerability Summary table. -/
structure VulnRow where
  weakness_name : String
  total_reports : Nat
  bounty_reports : Nat
  avg_vote_count : ℚ
  most_common_severity : String
  bounty_percentage : ℚ
deriving DecidableEq

/-- Aggregation body for one Vulnerability Summary group. -/
def vulnRowOfGroup (k : String) (g : List Row) : VulnRow :=
  let total := g.length
  let bounty := (g.filter (·.has_bounty)).length
  { weakness_name := k
    total_reports := total
    bounty_reports := bounty
    avg_vote_count := groupMean g
    most_common_severity := mode_agg (g.map (·.scope_max_severity))
    bounty_percentage := round2 ((bounty : ℚ) / (total : ℚ) * 100) }

/-- Embedding of the Vulnerability Summary construction: group by
weakness name, aggregate, sort descending by total reports. -/
def vulnerability_summary_table (rows : List Row) : List VulnRow :=
  List.insertionSort (fun a b => b.total_reports ≤ a.total_reports)
    ((groupByDropna strLeb (fun r => r.weakness_name) rows).map
      (fun g => vulnRowOfGroup g.1 g.2))

/-- Row of the Organization Metrics table. -/
structure OrgRow where
  team_handle : String
  total_reports : Nat
  bounty_reports : Nat
  avg_vote_count : ℚ
  first_report : Option Int
  latest_report : Option Int
  team_name : Option String
  bounty_percentage : ℚ
deriving DecidableEq

/-- Aggregation body for one Organization Metrics group (`'first'` takes
the first non-null value, `min`/`max` skip nulls). -/
def orgRowOfGroup (k : String) (g : List Row) : OrgRow :=
  let total := g.length
  let bounty := (g.filter (·.has_bounty)).length
  { team_handle := k
    total_reports := total
    bounty_reports := bounty
    avg_vote_count := groupMean g
    first_report := (g.filterMap (·.created_at)).min?
    latest_report := (g.filterMap (·.created_at)).max?
    team_name := (g.filterMap (·.team_name)).head?
    bounty_percentage := round2 ((bounty : ℚ) / (total : ℚ) * 100) }

/-- Embedding of the Organization Metrics construction. -/
def org_metrics_table (rows : List Row) : List OrgRow :=
  List.insertionSort (fun a b => b.total_reports ≤ a.total_reports)
    ((groupByDropna strLeb (fun r => r.team_handle) rows).map
      (fun g => orgRowOfGroup g.1 g.2))

/-- Row of the Reporter Analytics table. -/
structure ReporterRow where
  username : String
  total_reports : Nat
  valid_reports : Nat
  avg_vote_count : ℚ
  verified_status : Bool
  cleared_status : Bool
  specialization : String
  valid_percentage : ℚ
deriving DecidableEq

/-- Aggregation body for one Reporter Analytics group. -/
def reporterRowOfGroup (k : String) (g : List Row) : ReporterRow :=
  let total := g.length
  let valid := (g.filter (fun r => decide (r.substate = "resolved"))).length
  { username := k
    total_reports := total
    valid_reports := valid
    avg_vote_count := groupMean g
    verified_status := (g.map (·.reporter_verified)).headD false
    cleared_status := (g.map (·.reporter_cleared)).headD false
    specialization := mode_agg (g.map (·.weakness_name))
    valid_percentage := round2 ((valid : ℚ) / (total : ℚ) * 100) }

/-- Embedding of the Reporter Analytics construction. -/
def reporter_analytics_table (rows : List Row) : List ReporterRow :=
  List.insertionSort (fun a b => b.total_reports ≤ a.total_reports)
    ((groupByDropna strLeb (fun r => r.reporter_username) rows).map
      (fun g => reporterRowOfGroup g.1 g.2))

/-- Row of the Time Trends table. -/
structure TimeRow where
  year_month : String
  vulnerability_type : String
  report_count : Nat
  bounty_count : Nat
  organization_count : Nat
  bounty_percentage : ℚ
deriving DecidableEq

/-- Grouping key of the Time Trends table; a row with a null period or a
null weakness name joins no group (pandas drops a row when any key level
is null). -/
def timeKey (r : Row) : Option (String × String) :=
  match r.year_month, r.weakness_name with
  | some a, some b => some (a, b)
  | _, _ => none

/-- Lexicographic order on the Time Trends key pair. -/
def pairLeb (a b : String × String) : Bool :=
  if a.1 = b.1 then strLeb a.2 b.2 else strLeb a.1 b.1

/-- Aggregation body for one Time Trends group (`nunique` counts distinct
non-null team handles). -/
def timeRowOfGroup (k : String × String) (g : List Row) : TimeRow :=
  let total := g.length
  let bounty := (g.filter (·.has_bounty)).length
  { year_month := k.1
    vulnerability_type := k.2
    report_count := total
    bounty_count := bounty
    organization_count := (g.filterMap (·.team_handle)).dedup.length
    bounty_percentage := round2 ((bounty : ℚ) / (total : ℚ) * 100) }

/-- Embedding of the Time Trends construction: group by (period,
weakness), aggregate, sort ascending by period and descending by report
count within a period. -/
def time_trends_table (rows : List Row) : List TimeRow :=
  List.insertionSort
    (fun a b =>
      if a.year_month = b.year_month then b.report_count ≤ a.report_count
      else strLeb a.year_month b.year_month = true)
    ((groupByDropna pairLeb timeKey rows).map (fun g => timeRowOfGroup g.1 g.2))

/-- Identifier-like character (letter, digit or underscore), used for the
word boundaries of the claimed bare-token substitution. -/
def isIdentChar (c : Char) : Bool := c.isAlphanum || c = '_'

/-- Modelled from the claim wording for the normalizer: replace only bare
occurrences of `pat`, i.e. occurrences not preceded and not followed by an
identifier-like character, so that tokens embedded in longer words are
left intact.  The `prev` argument carries the character just before the
scan position. -/
def replaceBareAux (pat repl : List Char) : Option Char → Nat → List Char → List Char
  | _, 0, l => l
  | _, _ + 1, [] => []
  | prev, fuel + 1, c :: cs =>
    if pat.isPrefixOf (c :: cs) && !pat.isEmpty
        && !(match prev with | some p => isIdentChar p | none => false)
        && !(match (c :: cs).drop pat.length with | d :: _ => isIdentChar d | [] => false) then
      repl ++ replaceBareAux pat repl pat.getLast? fuel ((c :: cs).drop pat.length)
    else
      c :: replaceBareAux pat repl (some c) fuel cs

/-- String-level wrapper for `replaceBareAux`. -/
def replaceBare (pat repl s : String) : String :=
  ⟨replaceBareAux pat.data repl.data none s.data.length s.data⟩

/-- Modelled from the claim (C3): the normalizer as the claim describes
it, with bare-token substitution of `None`/`True`/`False` instead of the
unconditional substring substitution the source performs. -/
def clean_json_string_claim : Cell → String
  | Cell.str s =>
    let s1 := replaceSub "array([], dtype=object)" "[]" s
    let s2 := arraySub2 s1
    let s3 := replaceBare "None" "null" s2
    let s4 := replaceBare "True" "true" s3
    let s5 := replaceBare "False" "false" s4
    ⟨s5.data.map (fun c => if c = squote then dquote else c)⟩
  | _ => "\x7b\x7d"

/-- Normalizer step as the spec words it: collapse array-constructor
wrapped empty-list syntax to `[]`. -/
def collapseEmptyArrayCalls (s : String) : String :=
  replaceSub "array([], dtype=object)" "[]" s

/-- Normalizer step as the spec words it: collapse array-constructor
wrapped non-empty-list syntax to `[]` (contents are discarded). -/
def collapseArrayCalls (s : String) : String := arraySub2 s

/-- Normalizer step as amended: replace every occurrence of the
substrings `None`, `True` and `False` with `null`, `true` and `false`,
including occurrences inside longer words and inside string values. -/
def substituteConstants (s : String) : String :=
  replaceSub "False" "false" (replaceSub "True" "true" (replaceSub "None" "null" s))

/-- Normalizer step as the spec words it: replace all single quotes with
double quotes. -/
def swapQuotes (s : String) : String :=
  ⟨s.data.map (fun c => if c = squote then dquote else c)⟩

/-- Modelled from the claim (C2): mode selection with ties broken by
first order of occurrence in the per-group input. -/
def firstDedup (l : List String) : List String := (l.reverse.dedup).reverse

/-- Modelled from the claim (C2): most frequent value, ties broken by
first occurrence in per-group input order, `"unknown"` when the group has
no non-null values. -/
def modeFirstOccurrence (xs : List (Option String)) : String :=
  let vs := xs.filterMap id
  match (firstDedup vs).filter (fun v => vs.count v = maxCount vs) with
  | [] => "unknown"
  | m :: _ => m

/-- Contents of the four output files; `none` models a file that does not
exist yet. -/
structure OutputFiles where
  vulnerability_summary : Option (List VulnRow)
  organization_metrics : Option (List OrgRow)
  reporter_analytics : Option (List ReporterRow)
  time_trends : Option (List TimeRow)
deriving DecidableEq

/-- Embedding of one pipeline run as a state transformer on the four
output files: each table is rebuilt from the input rows alone and fully
overwrites its file (`to_csv` with a fixed path). -/
def run_pipeline (rows : List Row) : OutputFiles → OutputFiles :=
  fun _ =>
    { vulnerability_summary := some (vulnerability_summary_table rows)
      organization_metrics := some (org_metrics_table rows)
      reporter_analytics := some (reporter_analytics_table rows)
      time_trends := some (time_trends_table rows) }

/-- Counting a key in the stripped key column equals the size of the
corresponding group filter. -/
theorem count_filterMap_key {K : Type} [DecidableEq K] (key : Row → Option K)
    (rows : List Row) (k : K) :
    (rows.filterMap key).count k
      = (rows.filter (fun x => decide (key x = some k))).length := by
  induction rows with
  | nil => rfl
  | cons r rs ih =>
    cases h : key r with
    | none => simp [List.filterMap_cons, h, List.filter_cons, ih]
    | some a =>
      by_cases hak : a = k
      · subst hak
        simp [List.filterMap_cons, h, List.filter_cons, List.count_cons, ih]
      · simp [List.filterMap_cons, h, List.filter_cons, List.count_cons, hak, ih]

/-- Dropping the `Option` layer does not change how many rows have a
present key. -/
theorem length_filterMap_key {K : Type} (key : Row → Option K) (rows : List Row) :
    (rows.filterMap key).length = (rows.filter (fun x => (key x).isSome)).length := by
  induction rows with
  | nil => rfl
  | cons r rs ih =>
    cases h : key r <;> simp [List.filterMap_cons, h, List.filter_cons, ih]

/-- Partition property of the groupby embedding: group sizes sum to the
number of rows whose key is present. -/
theorem sum_groupByDropna_lengths {K : Type} [DecidableEq K] (leb : K → K → Bool)
    (key : Row → Option K) (rows : List Row) :
    ((groupByDropna leb key rows).map (fun g => g.2.length)).sum
      = (rows.filter (fun x => (key x).isSome)).length := by
  unfold groupByDropna
  rw [List.map_map]
  have hperm :
      List.Perm
        (List.map
          ((fun g : K × List Row => g.2.length) ∘
            fun k => (k, rows.filter (fun x => decide (key x = some k))))
          (List.insertionSort (fun a b => leb a b = true) ((rows.filterMap key).dedup)))
        (List.map
          ((fun g : K × List Row => g.2.length) ∘
            fun k => (k, rows.filter (fun x => decide (key x = some k))))
          ((rows.filterMap key).dedup)) :=
    (List.perm_insertionSort _ _).map _
  rw [hperm.sum_eq]
  have hfun :
      ((fun g : K × List Row => g.2.length) ∘
        fun k => (k, rows.filter (fun x => decide (key x = some k))))
      = fun k => (rows.filterMap key).count k := by
    funext k
    exact (count_filterMap_key key rows k).symm
  rw [hfun, List.sum_map_count_dedup_eq_length, length_filterMap_key]

/-- Membership in the groupby output determines the group contents and
guarantees the group is non-empty. -/
theorem mem_groupByDropna {K : Type} [DecidableEq K] {leb : K → K → Bool}
    {key : Row → Option K} {rows : List Row} {k : K} {g : List Row}
    (h : (k, g) ∈ groupByDropna leb key rows) :
    g = rows.filter (fun x => decide (key x = some k)) ∧ g ≠ [] := by
  unfold groupByDropna at h
  obtain ⟨k0, hk0, heq⟩ := List.mem_map.mp h
  obtain ⟨hk, hg⟩ := Prod.mk.injEq .. ▸ heq
  subst hk
  have hk1 : k0 ∈ (rows.filterMap key).dedup :=
    ((List.perm_insertionSort _ _).mem_iff).mp hk0
  obtain ⟨r, hr, hkr⟩ := List.mem_filterMap.mp (List.mem_dedup.mp hk1)
  have hrg : r ∈ rows.filter (fun x => decide (key x = some k0)) :=
    List.mem_filter.mpr ⟨hr, by simp [hkr]⟩
  exact ⟨hg.symm, hg ▸ List.ne_nil_of_mem hrg⟩

/-- Totality of the lexicographic character-list comparison. -/
theorem strLebAux_total : ∀ a b : List Char, strLebAux a b = true ∨ strLebAux b a = true
  | [], _ => Or.inl rfl
  | _ :: _, [] => Or.inr rfl
  | a :: as, b :: bs => by
    rcases Nat.lt_trichotomy a.toNat b.toNat with h | h | h
    · left
      simp [strLebAux, h]
    · have h1 : ¬ a.toNat < b.toNat := by omega
      have h2 : ¬ b.toNat < a.toNat := by omega
      rcases strLebAux_total as bs with ih | ih
      · left
        simp [strLebAux, h1, h2, ih]
      · right
        simp [strLebAux, h1, h2, ih]
    · right
      simp [strLebAux, h]

/-- Transitivity of the lexicographic character-list comparison. -/
theorem strLebAux_trans : ∀ a b c : List Char,
    strLebAux a b = true → strLebAux b c = true → strLebAux a c = true
  | [], _, _ => by
    intro _ _
    rfl
  | _ :: _, [], _ => by
    intro h _
    exact absurd h (by simp [strLebAux])
  | _ :: _, _ :: _, [] => by
    intro _ h
    exact absurd h (by simp [strLebAux])
  | a :: as, b :: bs, c :: cs => by
    intro h1 h2
    by_cases hab : a.toNat < b.toNat
    · by_cases hbc : b.toNat < c.toNat
      · have hac : a.toNat < c.toNat := Nat.lt_trans hab hbc
        simp [strLebAux, hac]
      · by_cases hcb : c.toNat < b.toNat
        · exact absurd h2 (by simp [strLebAux, hbc, hcb])
        · have hbc' : b.toNat = c.toNat := by omega
          have hac : a.toNat < c.toNat := hbc' ▸ hab
          simp [strLebAux, hac]
    · by_cases hba : b.toNat < a.toNat
      · exact absurd h1 (by simp [strLebAux, hab, hba])
      · have hab' : a.toNat = b.toNat := by omega
        simp only [strLebAux, if_neg hab, if_neg hba] at h1
        by_cases hbc : b.toNat < c.toNat
        · have hac : a.toNat < c.toNat := hab' ▸ hbc
          simp [strLebAux, hac]
        · by_cases hcb : c.toNat < b.toNat
          · exact absurd h2 (by simp [strLebAux, hbc, hcb])
          · have hbc' : b.toNat = c.toNat := by omega
            simp only [strLebAux, if_neg hbc, if_neg hcb] at h2
            have h3 : ¬ a.toNat < c.toNat := by omega
            have h4 : ¬ c.toNat < a.toNat := by omega
            simp [strLebAux, h3, h4, strLebAux_trans as bs cs h1 h2]

/-- Reflexivity of the lexicographic character-list comparison. -/
theorem strLebAux_refl : ∀ a : List Char, strLebAux a a = true
  | [] => rfl
  | a :: as => by simp [strLebAux, strLebAux_refl as]

instance : IsTotal String strLe := ⟨fun a b => strLebAux_total a.data b.data⟩

instance : IsTrans String strLe := ⟨fun a _ c => strLebAux_trans a.data _ c.data⟩

/-- Reflexivity of the string comparison relation. -/
theorem strLe_refl (a : String) : strLe a a := strLebAux_refl a.data

/-- Every element of a list of naturals is bounded by the max fold. -/
theorem le_foldr_max (l : List Nat) : ∀ x ∈ l, x ≤ l.foldr max 0 := by
  induction l with
  | nil =>
    intro x hx
    cases hx
  | cons a t ih =>
    intro x hx
    rcases List.mem_cons.mp hx with rfl | hx
    · exact le_max_left _ _
    · exact le_trans (ih x hx) (le_max_right _ _)

/-- The max fold of a non-empty list of naturals is attained. -/
theorem foldr_max_mem : ∀ l : List Nat, l ≠ [] → l.foldr max 0 ∈ l
  | [], h => absurd rfl h
  | a :: t, _ => by
    by_cases ht : t = []
    · subst ht
      simp
    · have hmem := foldr_max_mem t ht
      show max a (t.foldr max 0) ∈ a :: t
      rcases Nat.le_total a (t.foldr max 0) with h | h
      · rw [max_eq_right h]
        exact List.mem_cons_of_mem _ hmem
      · rw [max_eq_left h]
        exact List.mem_cons_self _ _

/-- Specification predicate for the mode aggregation, following the
amended claim: the result is `"unknown"` exactly when the group has no
non-null values, and otherwise is a non-null group value of maximal
frequency that precedes every other maximal-frequency value in ascending
string order (pandas sorts the modes and takes the first). -/
def modeSpecOk (vals : List (Option String)) (m : String) : Prop :=
  (vals.filterMap id = [] → m = "unknown")
  ∧ (vals.filterMap id ≠ [] →
      m ∈ vals.filterMap id
      ∧ ∀ v ∈ vals.filterMap id,
          (vals.filterMap id).count v ≤ (vals.filterMap id).count m
          ∧ ((vals.filterMap id).count v = (vals.filterMap id).count m → strLe m v))

/-- The mode aggregation satisfies its specification predicate. -/
theorem mode_agg_ok (xs : List (Option String)) : modeSpecOk xs (mode_agg xs) := by
  constructor
  · intro h
    simp [mode_agg, series_mode, h]
  · intro h
    have hd : (xs.filterMap id).dedup ≠ [] := by
      intro hnil
      exact h ((List.dedup_eq_nil _).mp hnil)
    have hmap : ((xs.filterMap id).dedup.map (fun v => (xs.filterMap id).count v)) ≠ [] := by
      simpa using hd
    obtain ⟨v0, hv0, hcnt⟩ := List.mem_map.mp (foldr_max_mem _ hmap)
    have hvfil : v0 ∈ (xs.filterMap id).dedup.filter
        (fun v => (xs.filterMap id).count v = maxCount (xs.filterMap id)) :=
      List.mem_filter.mpr ⟨hv0, by simp [maxCount, hcnt]⟩
    cases hsort : List.insertionSort strLe
        ((xs.filterMap id).dedup.filter
          (fun v => (xs.filterMap id).count v = maxCount (xs.filterMap id))) with
    | nil =>
      have : v0 ∈ List.insertionSort strLe
          ((xs.filterMap id).dedup.filter
            (fun v => (xs.filterMap id).count v = maxCount (xs.filterMap id))) :=
        ((List.perm_insertionSort _ _).mem_iff).mpr hvfil
      rw [hsort] at this
      cases this
    | cons m rest =>
      have hmode : mode_agg xs = m := by
        simp [mode_agg, series_mode, hsort]
      have hmmem : m ∈ (xs.filterMap id).dedup.filter
          (fun v => (xs.filterMap id).count v = maxCount (xs.filterMap id)) := by
        have : m ∈ List.insertionSort strLe
            ((xs.filterMap id).dedup.filter
              (fun v => (xs.filterMap id).count v = maxCount (xs.filterMap id))) := by
          rw [hsort]
          exact List.mem_cons_self _ _
        exact ((List.perm_insertionSort _ _).mem_iff).mp this
      obtain ⟨hmded, hmmax⟩ := List.mem_filter.mp hmmem
      have hmmax' : (xs.filterMap id).count m = maxCount (xs.filterMap id) := by
        simpa using hmmax
      have hsorted : List.Sorted strLe (m :: rest) := by
        rw [← hsort]
        exact List.sorted_insertionSort _ _
      rw [hmode]
      refine ⟨List.mem_dedup.mp hmded, ?_⟩
      intro v hv
      have hvded : v ∈ (xs.filterMap id).dedup := List.mem_dedup.mpr hv
      have hvle : (xs.filterMap id).count v ≤ maxCount (xs.filterMap id) :=
        le_foldr_max _ _ (List.mem_map.mpr ⟨v, hvded, rfl⟩)
      refine ⟨hmmax' ▸ hvle, ?_⟩
      intro hvmax
      have hvfil2 : v ∈ (xs.filterMap id).dedup.filter
          (fun v => (xs.filterMap id).count v = maxCount (xs.filterMap id)) :=
        List.mem_filter.mpr ⟨hvded, by simp [hvmax ▸ hmmax']⟩
      have : v ∈ m :: rest := by
        rw [← hsort]
        exact ((List.perm_insertionSort _ _).mem_iff).mpr hvfil2
      rcases List.mem_cons.mp this with rfl | hvrest
      · exact strLe_refl v
      · exact List.rel_of_sorted_cons hsorted v hvrest

/-- Bounds for half-even rounding on the scaled percentage range. -/
theorem roundHalfEven_bounds {y : ℚ} (h0 : 0 ≤ y) (h1 : y ≤ 10000) :
    0 ≤ roundHalfEven y ∧ roundHalfEven y ≤ 10000 := by
  have hn0 : (0 : ℤ) ≤ ⌊y⌋ := Int.floor_nonneg.mpr h0
  have hcap : ⌊(10000 : ℚ)⌋ = 10000 := by norm_num
  have hn1 : ⌊y⌋ ≤ 10000 := by
    have := Int.floor_mono h1
    rwa [hcap] at this
  have hplus : 1/2 ≤ y - ⌊y⌋ → ⌊y⌋ + 1 ≤ 10000 := by
    intro hf
    have hfl : (⌊y⌋ : ℚ) ≤ y := Int.floor_le y
    have : ⌊y⌋ ≤ 9999 := by
      by_contra hcon
      push_neg at hcon
      have h1' : (10000 : ℚ) ≤ (⌊y⌋ : ℚ) := by exact_mod_cast hcon
      linarith
    omega
  unfold roundHalfEven
  split_ifs with hf1 hf2 hpar
  · exact ⟨hn0, hn1⟩
  · exact ⟨by omega, hplus (le_of_lt hf2)⟩
  · exact ⟨hn0, hn1⟩
  · exact ⟨by omega, hplus (le_of_not_lt hf1)⟩

/-- Rounding to two decimals keeps a value of `[0, 100]` inside
`[0, 100]`. -/
theorem round2_bounds {q : ℚ} (h0 : 0 ≤ q) (h1 : q ≤ 100) :
    0 ≤ round2 q ∧ round2 q ≤ 100 := by
  have hy0 : 0 ≤ q * 100 := by positivity
  have hy1 : q * 100 ≤ 10000 := by nlinarith
  obtain ⟨ha, hb⟩ := roundHalfEven_bounds hy0 hy1
  unfold round2
  constructor
  · apply div_nonneg _ (by norm_num : (0 : ℚ) ≤ 100)
    exact_mod_cast ha
  · rw [div_le_iff₀ (by norm_num : (0 : ℚ) < 100)]
    have hcast : ((roundHalfEven (q * 100) : ℤ) : ℚ) ≤ 10000 := by exact_mod_cast hb
    linarith

/-- A ratio of a part to a positive whole, times 100 and rounded, lies in
`[0, 100]`. -/
theorem pct_bounds {b t : Nat} (ht : 0 < t) (hb : b ≤ t) :
    0 ≤ round2 ((b : ℚ) / (t : ℚ) * 100) ∧ round2 ((b : ℚ) / (t : ℚ) * 100) ≤ 100 := by
  have ht' : (0 : ℚ) < (t : ℚ) := by exact_mod_cast ht
  have h0 : (0 : ℚ) ≤ (b : ℚ) / (t : ℚ) * 100 := by positivity
  have hble : (b : ℚ) ≤ (t : ℚ) := by exact_mod_cast hb
  have h1 : (b : ℚ) / (t : ℚ) * 100 ≤ 100 := by
    have hone : (b : ℚ) / (t : ℚ) ≤ 1 := by
      rw [div_le_one ht']
      exact hble
    nlinarith
  exact round2_bounds h0 h1

/-- Membership destructor for the Vulnerability Summary table. -/
theorem mem_vuln_table {rows : List Row} {t : VulnRow}
    (h : t ∈ vulnerability_summary_table rows) :
    ∃ k g, (k, g) ∈ groupByDropna strLeb (fun r => r.weakness_name) rows
      ∧ t = vulnRowOfGroup k g := by
  unfold vulnerability_summary_table at h
  have h2 := ((List.perm_insertionSort _ _).mem_iff).mp h
  obtain ⟨⟨k, g⟩, hmem, rfl⟩ := List.mem_map.mp h2
  exact ⟨k, g, hmem, rfl⟩

/-- Membership destructor for the Organization Metrics table. -/
theorem mem_org_table {rows : List Row} {t : OrgRow}
    (h : t ∈ org_metrics_table rows) :
    ∃ k g, (k, g) ∈ groupByDropna strLeb (fun r => r.team_handle) rows
      ∧ t = orgRowOfGroup k g := by
  unfold org_metrics_table at h
  have h2 := ((List.perm_insertionSort _ _).mem_iff).mp h
  obtain ⟨⟨k, g⟩, hmem, rfl⟩ := List.mem_map.mp h2
  exact ⟨k, g, hmem, rfl⟩

/-- Membership destructor for the Reporter Analytics table. -/
theorem mem_reporter_table {rows : List Row} {t : ReporterRow}
    (h : t ∈ reporter_analytics_table rows) :
    ∃ k g, (k, g) ∈ groupByDropna strLeb (fun r => r.reporter_username) rows
      ∧ t = reporterRowOfGroup k g := by
  unfold reporter_analytics_table at h
  have h2 := ((List.perm_insertionSort _ _).mem_iff).mp h
  obtain ⟨⟨k, g⟩, hmem, rfl⟩ := List.mem_map.mp h2
  exact ⟨k, g, hmem, rfl⟩

/-- Membership destructor for the Time Trends table. -/
theorem mem_time_table {rows : List Row} {t : TimeRow}
    (h : t ∈ time_trends_table rows) :
    ∃ k g, (k, g) ∈ groupByDropna pairLeb timeKey rows
      ∧ t = timeRowOfGroup k g := by
  unfold time_trends_table at h
  have h2 := ((List.perm_insertionSort _ _).mem_iff).mp h
  obtain ⟨⟨k, g⟩, hmem, rfl⟩ := List.mem_map.mp h2
  exact ⟨k, g, hmem, rfl⟩

/-- Team cell string of the spec's worked example. -/
def acmeCellStr : String :=
  "\x7b'handle': 'acme', 'profile': \x7b'name': 'Acme Corp'\x7d, 'offers_bounties': True\x7d"

/-- Decoded record of the spec's worked example. -/
def acmeValue : Value :=
  Value.obj [("handle", Value.str "acme"),
             ("profile", Value.obj [("name", Value.str "Acme Corp")]),
             ("offers_bounties", Value.bool true)]

/-- Cell string that is a valid Python literal with an apostrophe inside a
string value. -/
def obrienCellStr : String := "\x7b'name': \"O'Brien\"\x7d"

/-- Decoded record of the apostrophe example. -/
def obrienValue : Value := Value.obj [("name", Value.str "O'Brien")]

/-- C1: the structured-field parsing chain never raises; a string cell on
which both the strict JSON decode of the normalized string and the
permissive literal decode fail yields the empty mapping, and the batch
map always produces one output per input row. -/
theorem c1_parse_fallback_total (cells : List Cell) (s : String)
    (h1 : json_loads (clean_json_string (Cell.str s)) = none)
    (h2 : literal_eval s = none) :
    parse_cell (Cell.str s) = emptyObj
      ∧ (parse_json_column cells).length = cells.length := by
  refine ⟨?_, by simp [parse_json_column]⟩
  simp [parse_cell, h1, h2]

/-- Witness for C1: both decoders fail on a concrete malformed cell and
the chain degrades to the empty mapping without aborting the batch. -/
theorem c1_parse_fallback_total_witness :
    json_loads (clean_json_string (Cell.str "\x7b\x7b\x7b")) = none
      ∧ literal_eval "\x7b\x7b\x7b" = none
      ∧ parse_cell (Cell.str "\x7b\x7b\x7b") = emptyObj
      ∧ (parse_json_column [Cell.str "\x7b\x7b\x7b", Cell.null]).length = 2 := by
  have h := c1_parse_fallback_total [Cell.str "\x7b\x7b\x7b", Cell.null] "\x7b\x7b\x7b" rfl rfl
  exact ⟨rfl, rfl, h.1, h.2⟩

/-- C10: when the strict JSON decode of the normalized string fails, the
permissive literal decoder is applied to the original raw cell string,
so a successful literal decode is returned verbatim. -/
theorem c10_literal_fallback_uses_raw (s : String) (v : Value)
    (h1 : json_loads (clean_json_string (Cell.str s)) = none)
    (h2 : literal_eval s = some v) :
    parse_cell (Cell.str s) = v := by
  simp [parse_cell, h1, h2]

/-- Witness for C10: the quote replacement corrupts the `O'Brien` cell
into undecodable JSON, yet the parsed record preserves the apostrophe
because the literal decoder sees the raw string. -/
theorem c10_literal_fallback_uses_raw_witness :
    json_loads (clean_json_string (Cell.str obrienCellStr)) = none
      ∧ literal_eval obrienCellStr = some obrienValue
      ∧ parse_cell (Cell.str obrienCellStr) = obrienValue :=
  ⟨rfl, rfl, c10_literal_fallback_uses_raw obrienCellStr obrienValue rfl rfl⟩

/-- C4: contrary to the no-raise contract, team extraction raises on a
decoded sequence whose first element is not a mapping: the team cell
string `[1, 2]` decodes to a list of integers and `extract_team_info`
then hits `AttributeError` (modeled as `Except.error`) instead of
returning the defaults. -/
theorem c4_team_extraction_raises :
    parse_cell (Cell.str "[1, 2]") = Value.list [Value.int 1, Value.int 2]
      ∧ extract_team_info (Value.list [Value.int 1, Value.int 2]) = Except.error () :=
  ⟨rfl, rfl⟩

/-- C5 (amended): team extraction reads a single mapping directly and the
first element of a non-empty sequence when that element is a mapping; it
fails (raises) on a non-empty sequence whose first element is not a
mapping; every other shape yields the all-defaults record; and the acme
example extracts as specified. -/
theorem c5_team_polymorphic_extraction :
    (parse_cell (Cell.str acmeCellStr) = acmeValue
      ∧ extract_team_info acmeValue
          = Except.ok ⟨Value.str "acme", Value.str "Acme Corp", Value.bool true⟩)
    ∧ (∀ kvs, extract_team_info (Value.obj kvs) = Except.ok (teamFromDict kvs))
    ∧ (∀ kvs rest,
        extract_team_info (Value.list (Value.obj kvs :: rest)) = Except.ok (teamFromDict kvs))
    ∧ (∀ t rest, (∀ kvs, t ≠ Value.obj kvs) →
        extract_team_info (Value.list (t :: rest)) = Except.error ())
    ∧ (∀ v, (∀ kvs, v ≠ Value.obj kvs) → (∀ t rest, v ≠ Value.list (t :: rest)) →
        extract_team_info v = Except.ok defaultTeamInfo) := by
  refine ⟨⟨rfl, rfl⟩, fun kvs => rfl, fun kvs rest => rfl, ?_, ?_⟩
  · intro t rest ht
    cases t with
    | obj kvs => exact absurd rfl (ht kvs)
    | null => rfl
    | bool b => rfl
    | int n => rfl
    | str s => rfl
    | list xs => rfl
  · intro v hobj hlist
    cases v with
    | obj kvs => exact absurd rfl (hobj kvs)
    | list xs =>
      cases xs with
      | nil => rfl
      | cons t rest => exact absurd rfl (hlist t rest)
    | null => rfl
    | bool b => rfl
    | int n => rfl
    | str s => rfl

/-- Counterexample for C5 as stated: a non-empty sequence whose first
element is not a mapping is "another shape" under the claim and should
yield the all-defaults record, but extraction errors instead. -/
theorem c5_counterexample :
    extract_team_info (Value.list [Value.int 1]) ≠ Except.ok defaultTeamInfo := by
  intro h
  have he : extract_team_info (Value.list [Value.int 1]) = Except.error () := rfl
  rw [he] at h
  exact Except.noConfusion h

/-- Witness for C5: the default branch and the error branch evaluated at
concrete shapes. -/
theorem c5_team_polymorphic_extraction_witness :
    extract_team_info (Value.int 7) = Except.ok defaultTeamInfo
      ∧ extract_team_info (Value.list [Value.str "x"]) = Except.error () :=
  ⟨c5_team_polymorphic_extraction.2.2.2.2 (Value.int 7)
      (fun _ h => Value.noConfusion h) (fun _ _ h => Value.noConfusion h),
    c5_team_polymorphic_extraction.2.2.2.1 (Value.str "x") []
      (fun _ h => Value.noConfusion h)⟩

/-- C6 (amended): a null-equivalent cell normalizes to the empty-object
literal and decodes to the empty mapping, while a non-string non-null
cell also normalizes to the empty-object literal but is passed through
the decode step unchanged rather than becoming the empty mapping. -/
theorem c6_nonstring_cells (c : Cell) (h : c.isna = true) :
    (clean_json_string c = "\x7b\x7d" ∧ parse_cell c = emptyObj)
      ∧ (∀ n : Int,
          clean_json_string (Cell.int n) = "\x7b\x7d" ∧ parse_cell (Cell.int n) = Value.int n)
      ∧ (∀ b : Bool,
          clean_json_string (Cell.bool b) = "\x7b\x7d"
            ∧ parse_cell (Cell.bool b) = Value.bool b) := by
  refine ⟨?_, fun n => ⟨rfl, rfl⟩, fun b => ⟨rfl, rfl⟩⟩
  cases c with
  | null => exact ⟨rfl, rfl⟩
  | nan => exact ⟨rfl, rfl⟩
  | str s => simp [Cell.isna] at h
  | int n => simp [Cell.isna] at h
  | bool b => simp [Cell.isna] at h

/-- Counterexample for C6 as stated: a non-string non-null cell does not
decode to the empty mapping; the raw value is passed through. -/
theorem c6_counterexample : parse_cell (Cell.int 5) ≠ emptyObj := by
  intro h
  have he : parse_cell (Cell.int 5) = Value.int 5 := rfl
  rw [he] at h
  exact absurd h (by simp [emptyObj])

/-- Witness for C6 at the NaN cell. -/
theorem c6_nonstring_cells_witness :
    clean_json_string Cell.nan = "\x7b\x7d" ∧ parse_cell Cell.nan = emptyObj :=
  (c6_nonstring_cells Cell.nan rfl).1

/-- C3 (amended): the normalizer applies exactly, in order, the
empty-array collapse, the non-empty-array collapse, the unconditional
substring substitution of `None`/`True`/`False` (occurrences inside
longer words and string values included), and the quote swap; evaluated
on a cell with an embedded non-bare `None`. -/
theorem c3_normalizer_steps :
    (∀ s : String,
      clean_json_string (Cell.str s)
        = swapQuotes (substituteConstants (collapseArrayCalls (collapseEmptyArrayCalls s))))
    ∧ clean_json_string (Cell.str "\x7b'a': 'NoneSense'\x7d")
        = "\x7b\"a\": \"nullSense\"\x7d" :=
  ⟨fun _ => rfl, rfl⟩

/-- Counterexample for C3 as stated: the source normalizer and the
claimed bare-token normalizer disagree on a cell whose `None` occurrence
is embedded in a longer word inside a string value. -/
theorem c3_counterexample :
    clean_json_string (Cell.str "\x7b'a': 'NoneSense'\x7d")
      ≠ clean_json_string_claim (Cell.str "\x7b'a': 'NoneSense'\x7d") := by
  have h1 : clean_json_string (Cell.str "\x7b'a': 'NoneSense'\x7d")
      = "\x7b\"a\": \"nullSense\"\x7d" := rfl
  have h2 : clean_json_string_claim (Cell.str "\x7b'a': 'NoneSense'\x7d")
      = "\x7b\"a\": \"NoneSense\"\x7d" := rfl
  rw [h1, h2]
  decide

/-- C9: the pipeline is a pure function of the input row-set that fully
overwrites its outputs, so its result is independent of any prior output
state and re-running it on unchanged input reproduces identical output
tables. -/
theorem c9_pipeline_deterministic (rows : List Row) (prev1 prev2 : OutputFiles) :
    run_pipeline rows prev1 = run_pipeline rows prev2
      ∧ run_pipeline rows (run_pipeline rows prev1) = run_pipeline rows prev1 :=
  ⟨rfl, rfl⟩

/-- C7: in every output table, every bounty or valid percentage equals
`round2` of the ratio of its numerator column to its group total times
100, and lies in `[0, 100]`. -/
theorem c7_percentages (rows : List Row) :
    (∀ t ∈ vulnerability_summary_table rows,
        t.bounty_percentage = round2 ((t.bounty_reports : ℚ) / (t.total_reports : ℚ) * 100)
          ∧ 0 ≤ t.bounty_percentage ∧ t.bounty_percentage ≤ 100)
    ∧ (∀ t ∈ org_metrics_table rows,
        t.bounty_percentage = round2 ((t.bounty_reports : ℚ) / (t.total_reports : ℚ) * 100)
          ∧ 0 ≤ t.bounty_percentage ∧ t.bounty_percentage ≤ 100)
    ∧ (∀ t ∈ reporter_analytics_table rows,
        t.valid_percentage = round2 ((t.valid_reports : ℚ) / (t.total_reports : ℚ) * 100)
          ∧ 0 ≤ t.valid_percentage ∧ t.valid_percentage ≤ 100)
    ∧ (∀ t ∈ time_trends_table rows,
        t.bounty_percentage = round2 ((t.bounty_count : ℚ) / (t.report_count : ℚ) * 100)
          ∧ 0 ≤ t.bounty_percentage ∧ t.bounty_percentage ≤ 100) := by
  refine ⟨?_, ?_, ?_, ?_⟩
  · intro t ht
    obtain ⟨k, g, hkg, rfl⟩ := mem_vuln_table ht
    obtain ⟨-, hgne⟩ := mem_groupByDropna hkg
    have hpos : 0 < g.length := List.length_pos.mpr hgne
    have hle : (g.filter (fun r => r.has_bounty)).length ≤ g.length :=
      List.length_filter_le _ _
    exact ⟨rfl, (pct_bounds hpos hle).1, (pct_bounds hpos hle).2⟩
  · intro t ht
    obtain ⟨k, g, hkg, rfl⟩ := mem_org_table ht
    obtain ⟨-, hgne⟩ := mem_groupByDropna hkg
    have hpos : 0 < g.length := List.length_pos.mpr hgne
    have hle : (g.filter (fun r => r.has_bounty)).length ≤ g.length :=
      List.length_filter_le _ _
    exact ⟨rfl, (pct_bounds hpos hle).1, (pct_bounds hpos hle).2⟩
  · intro t ht
    obtain ⟨k, g, hkg, rfl⟩ := mem_reporter_table ht
    obtain ⟨-, hgne⟩ := mem_groupByDropna hkg
    have hpos : 0 < g.length := List.length_pos.mpr hgne
    have hle : (g.filter (fun r => decide (r.substate = "resolved"))).length ≤ g.length :=
      List.length_filter_le _ _
    exact ⟨rfl, (pct_bounds hpos hle).1, (pct_bounds hpos hle).2⟩
  · intro t ht
    obtain ⟨k, g, hkg, rfl⟩ := mem_time_table ht
    obtain ⟨-, hgne⟩ := mem_groupByDropna hkg
    have hpos : 0 < g.length := List.length_pos.mpr hgne
    have hle : (g.filter (fun r => r.has_bounty)).length ≤ g.length :=
      List.length_filter_le _ _
    exact ⟨rfl, (pct_bounds hpos hle).1, (pct_bounds hpos hle).2⟩

/-- Concrete one-row input whose every grouping key is present. -/
def rows3 : List Row :=
  [{ id := 1, weakness_name := some "w", team_handle := some "t", team_name := some "T",
     reporter_username := some "u", reporter_verified := true, reporter_cleared := false,
     scope_max_severity := some "high", has_bounty := true, vote_count := 0,
     substate := "resolved", created_at := some 0, year_month := some "2023-01" }]

/-- The Vulnerability Summary row of `rows3`. -/
def vt3 : VulnRow :=
  vulnRowOfGroup "w" (rows3.filter (fun x => decide (x.weakness_name = some "w")))

/-- The Organization Metrics row of `rows3`. -/
def ot3 : OrgRow :=
  orgRowOfGroup "t" (rows3.filter (fun x => decide (x.team_handle = some "t")))

/-- The Reporter Analytics row of `rows3`. -/
def rt3 : ReporterRow :=
  reporterRowOfGroup "u" (rows3.filter (fun x => decide (x.reporter_username = some "u")))

/-- The Time Trends row of `rows3`. -/
def tt3 : TimeRow :=
  timeRowOfGroup ("2023-01", "w")
    (rows3.filter (fun x => decide (timeKey x = some ("2023-01", "w"))))

/-- Witness for C7 on the concrete one-row input, one table row from each
of the four tables. -/
theorem c7_percentages_witness :
    (vt3.bounty_percentage = round2 ((vt3.bounty_reports : ℚ) / (vt3.total_reports : ℚ) * 100)
      ∧ 0 ≤ vt3.bounty_percentage ∧ vt3.bounty_percentage ≤ 100)
    ∧ (0 ≤ ot3.bounty_percentage ∧ ot3.bounty_percentage ≤ 100)
    ∧ (0 ≤ rt3.valid_percentage ∧ rt3.valid_percentage ≤ 100)
    ∧ (0 ≤ tt3.bounty_percentage ∧ tt3.bounty_percentage ≤ 100) := by
  have hv : vt3 ∈ vulnerability_summary_table rows3 := by
    have h : vulnerability_summary_table rows3 = [vt3] := rfl
    rw [h]
    exact List.mem_singleton_self _
  have ho : ot3 ∈ org_metrics_table rows3 := by
    have h : org_metrics_table rows3 = [ot3] := rfl
    rw [h]
    exact List.mem_singleton_self _
  have hr : rt3 ∈ reporter_analytics_table rows3 := by
    have h : reporter_analytics_table rows3 = [rt3] := rfl
    rw [h]
    exact List.mem_singleton_self _
  have htt : tt3 ∈ time_trends_table rows3 := by
    have h : time_trends_table rows3 = [tt3] := rfl
    rw [h]
    exact List.mem_singleton_self _
  have c := c7_percentages rows3
  exact ⟨c.1 vt3 hv,
    ⟨(c.2.1 ot3 ho).2.1, (c.2.1 ot3 ho).2.2⟩,
    ⟨(c.2.2.1 rt3 hr).2.1, (c.2.2.1 rt3 hr).2.2⟩,
    ⟨(c.2.2.2 tt3 htt).2.1, (c.2.2.2 tt3 htt).2.2⟩⟩

/-- Total-reports sum identity for the Vulnerability Summary table. -/
theorem sum_total_vuln (rows : List Row) :
    ((vulnerability_summary_table rows).map (fun t => t.total_reports)).sum
      = (rows.filter (fun x => (x.weakness_name).isSome)).length := by
  unfold vulnerability_summary_table
  rw [((List.perm_insertionSort _ _).map (fun t : VulnRow => t.total_reports)).sum_eq,
    List.map_map]
  exact sum_groupByDropna_lengths strLeb (fun r => r.weakness_name) rows

/-- Total-reports sum identity for the Organization Metrics table. -/
theorem sum_total_org (rows : List Row) :
    ((org_metrics_table rows).map (fun t => t.total_reports)).sum
      = (rows.filter (fun x => (x.team_handle).isSome)).length := by
  unfold org_metrics_table
  rw [((List.perm_insertionSort _ _).map (fun t : OrgRow => t.total_reports)).sum_eq,
    List.map_map]
  exact sum_groupByDropna_lengths strLeb (fun r => r.team_handle) rows

/-- Total-reports sum identity for the Reporter Analytics table. -/
theorem sum_total_reporter (rows : List Row) :
    ((reporter_analytics_table rows).map (fun t => t.total_reports)).sum
      = (rows.filter (fun x => (x.reporter_username).isSome)).length := by
  unfold reporter_analytics_table
  rw [((List.perm_insertionSort _ _).map (fun t : ReporterRow => t.total_reports)).sum_eq,
    List.map_map]
  exact sum_groupByDropna_lengths strLeb (fun r => r.reporter_username) rows

/-- Report-count sum identity for the Time Trends table. -/
theorem sum_total_time (rows : List Row) :
    ((time_trends_table rows).map (fun t => t.report_count)).sum
      = (rows.filter (fun x => (timeKey x).isSome)).length := by
  unfold time_trends_table
  rw [((List.perm_insertionSort _ _).map (fun t : TimeRow => t.report_count)).sum_eq,
    List.map_map]
  exact sum_groupByDropna_lengths pairLeb timeKey rows

/-- C8: for each output table whose grouping key is total-coverage (every
row has a present key and so contributes to exactly one group), the
per-group total-reports column sums to the number of input rows. -/
theorem c8_group_totals (rows : List Row) :
    ((∀ r ∈ rows, (r.weakness_name).isSome) →
      ((vulnerability_summary_table rows).map (fun t => t.total_reports)).sum = rows.length)
    ∧ ((∀ r ∈ rows, (r.team_handle).isSome) →
      ((org_metrics_table rows).map (fun t => t.total_reports)).sum = rows.length)
    ∧ ((∀ r ∈ rows, (r.reporter_username).isSome) →
      ((reporter_analytics_table rows).map (fun t => t.total_reports)).sum = rows.length)
    ∧ ((∀ r ∈ rows, (timeKey r).isSome) →
      ((time_trends_table rows).map (fun t => t.report_count)).sum = rows.length) := by
  refine ⟨fun h => ?_, fun h => ?_, fun h => ?_, fun h => ?_⟩
  · rw [sum_total_vuln, List.filter_eq_self.mpr h]
  · rw [sum_total_org, List.filter_eq_self.mpr h]
  · rw [sum_total_reporter, List.filter_eq_self.mpr h]
  · rw [sum_total_time, List.filter_eq_self.mpr h]

/-- Witness for C8 on the concrete one-row input: every key is present
and all four tables sum to the input length. -/
theorem c8_group_totals_witness :
    ((vulnerability_summary_table rows3).map (fun t => t.total_reports)).sum = rows3.length
    ∧ ((org_metrics_table rows3).map (fun t => t.total_reports)).sum = rows3.length
    ∧ ((reporter_analytics_table rows3).map (fun t => t.total_reports)).sum = rows3.length
    ∧ ((time_trends_table rows3).map (fun t => t.report_count)).sum = rows3.length := by
  have c := c8_group_totals rows3
  exact ⟨c.1 (by decide), c.2.1 (by decide), c.2.2.1 (by decide), c.2.2.2 (by decide)⟩

/-- C2 (amended): in the Vulnerability Summary and Reporter Analytics
tables the mode column is the most frequent non-null value of its group,
ties broken by the smallest value in ascending string order (pandas
`mode()` returns the modes sorted and `iloc[0]` takes the first), with
the literal `"unknown"` when the group has no non-null values. -/
theorem c2_mode_columns (rows : List Row) :
    (∀ t ∈ vulnerability_summary_table rows,
        modeSpecOk
          ((rows.filter (fun r => decide (r.weakness_name = some t.weakness_name))).map
            (fun r => r.scope_max_severity))
          t.most_common_severity)
    ∧ (∀ t ∈ reporter_analytics_table rows,
        modeSpecOk
          ((rows.filter (fun r => decide (r.reporter_username = some t.username))).map
            (fun r => r.weakness_name))
          t.specialization) := by
  constructor
  · intro t ht
    obtain ⟨k, g, hkg, rfl⟩ := mem_vuln_table ht
    obtain ⟨hgeq, -⟩ := mem_groupByDropna hkg
    show modeSpecOk
      ((rows.filter (fun r => decide (r.weakness_name = some k))).map
        (fun r => r.scope_max_severity))
      (mode_agg (g.map (fun r => r.scope_max_severity)))
    rw [← hgeq]
    exact mode_agg_ok _
  · intro t ht
    obtain ⟨k, g, hkg, rfl⟩ := mem_reporter_table ht
    obtain ⟨hgeq, -⟩ := mem_groupByDropna hkg
    show modeSpecOk
      ((rows.filter (fun r => decide (r.reporter_username = some k))).map
        (fun r => r.weakness_name))
      (mode_agg (g.map (fun r => r.weakness_name)))
    rw [← hgeq]
    exact mode_agg_ok _

/-- Two-row input whose single group has the tied severities `"b"` then
`"a"` in input order. -/
def c2rows : List Row :=
  [{ id := 1, weakness_name := some "w", team_handle := some "t", team_name := some "T",
     reporter_username := some "u", reporter_verified := true, reporter_cleared := false,
     scope_max_severity := some "b", has_bounty := false, vote_count := 0,
     substate := "new", created_at := some 0, year_month := some "2023-01" },
   { id := 2, weakness_name := some "w", team_handle := some "t", team_name := some "T",
     reporter_username := some "u", reporter_verified := true, reporter_cleared := false,
     scope_max_severity := some "a", has_bounty := false, vote_count := 0,
     substate := "new", created_at := some 0, year_month := some "2023-01" }]

/-- Counterexample for C2 as stated: on a tied group the table selects
the smallest severity in sort order (`"a"`), not the first occurrence in
per-group input order (`"b"`). -/
theorem c2_counterexample :
    (vulnerability_summary_table c2rows).map (fun t => t.most_common_severity)
      ≠ [modeFirstOccurrence (c2rows.map (fun r => r.scope_max_severity))] := by
  have h1 : (vulnerability_summary_table c2rows).map (fun t => t.most_common_severity)
      = ["a"] := rfl
  have h2 : modeFirstOccurrence (c2rows.map (fun r => r.scope_max_severity)) = "b" := rfl
  rw [h1, h2]
  decide

/-- Witness for C2 on the concrete one-row input: the mode specification
instantiated at the Vulnerability Summary row of `rows3`. -/
theorem c2_mode_columns_witness :
    modeSpecOk
      ((rows3.filter (fun r => decide (r.weakness_name = some vt3.weakness_name))).map
        (fun r => r.scope_max_severity))
      vt3.most_common_severity := by
  have hv : vt3 ∈ vulnerability_summary_table rows3 := by
    have h : vulnerability_summary_table rows3 = [vt3] := rfl
    rw [h]
    exact List.mem_singleton_self _
  exact (c2_mode_columns rows3).1 vt3 hv
